import Mathlib

/-!
Shallow embedding of the essl-zoho adaptive sync engine, checked against its
specification.  Time values (poll intervals, backoff factors) are modelled as
rationals (JavaScript numbers on the ranges used here behave as exact
rationals for the arithmetic the code performs: `*`, `/ 2`, `Math.min`,
`Math.max`, `Math.pow`).  Timestamps are modelled as naturals (epoch
milliseconds) or, for OAuth expiry arithmetic, integers.  Strings are
modelled as lists of characters where character-level parsing is proved.
-/

namespace Orchestrator

/-- Configuration slice read by `OptimizedSyncService`
(`config.essl.baseInterval/maxInterval/minInterval`,
`config.sync.emptyPollsToBackoff/backoffFactor`). -/
structure SyncConfig where
  baseInterval : ℚ
  maxInterval : ℚ
  minInterval : ℚ
  emptyPollsToBackoff : Nat
  backoffFactor : ℚ
deriving DecidableEq

/-- Mutable state of `OptimizedSyncService` relevant to scheduling:
`lastSyncTime` (the sync cursor, as an epoch timestamp), `currentInterval`,
`emptyPollsCount`, `consecutiveErrors`. -/
structure SyncState where
  lastSyncTime : Nat
  currentInterval : ℚ
  emptyPollsCount : Nat
  consecutiveErrors : Nat
deriving DecidableEq

/-- `handleEmptyPoll` from `OptimizedSyncService`: increment the empty-poll
counter, reset the error counter, and once the counter reaches
`emptyPollsToBackoff`, set the interval to
`min(maxInterval, currentInterval * backoffFactor)`. -/
def handleEmptyPoll (cfg : SyncConfig) (s : SyncState) : SyncState :=
  let s := { s with emptyPollsCount := s.emptyPollsCount + 1, consecutiveErrors := 0 }
  if cfg.emptyPollsToBackoff ≤ s.emptyPollsCount then
    { s with currentInterval := min cfg.maxInterval (s.currentInterval * cfg.backoffFactor) }
  else
    s

/-- `handleSuccessfulPoll`: reset both counters and reset the interval to
`baseInterval`. -/
def handleSuccessfulPoll (cfg : SyncConfig) (s : SyncState) : SyncState :=
  { s with emptyPollsCount := 0, consecutiveErrors := 0, currentInterval := cfg.baseInterval }

/-- `handleSyncError`: increment the consecutive-error counter, reset the
empty-poll counter, and set the interval to
`min(maxInterval, baseInterval * backoffFactor ^ consecutiveErrors)` (with the
already-incremented counter). -/
def handleSyncError (cfg : SyncConfig) (s : SyncState) : SyncState :=
  let s := { s with consecutiveErrors := s.consecutiveErrors + 1, emptyPollsCount := 0 }
  { s with currentInterval := min cfg.maxInterval (cfg.baseInterval * cfg.backoffFactor ^ s.consecutiveErrors) }

/-- The hard-coded peak-hour windows of `OptimizedSyncService` (8-10 and
17-19, end exclusive). -/
def isPeakHour (hour : Nat) : Bool :=
  (8 ≤ hour ∧ hour < 10) ∨ (17 ≤ hour ∧ hour < 19)

/-- `adjustIntervalBasedOnTime`: during peak hours, if the interval is above
`minInterval`, halve it but clamp at `minInterval`. -/
def adjustIntervalBasedOnTime (cfg : SyncConfig) (hour : Nat) (s : SyncState) : SyncState :=
  if isPeakHour hour ∧ cfg.minInterval < s.currentInterval then
    { s with currentInterval := max cfg.minInterval (s.currentInterval / 2) }
  else
    s

/-- Observable outcome of one `syncCycle` body: the fetch+process part either
threw an uncaught error, returned no transactions, or returned records that
were processed. -/
inductive CycleOutcome where
  | error
  | empty
  | records
deriving DecidableEq

/-- Inputs driving one `syncCycle`: the wall-clock timestamp captured as
`currentTime`, the wall-clock hour used by `adjustIntervalBasedOnTime`, and
the cycle outcome. -/
structure CycleInput where
  now : Nat
  hour : Nat
  outcome : CycleOutcome
deriving DecidableEq

/-- One `syncCycle` iteration of `OptimizedSyncService`: on a non-error cycle
the cursor `lastSyncTime` is advanced to `currentTime` and the matching
handler runs; on an uncaught error the catch block runs `handleSyncError`
and the cursor assignment is skipped.  Afterwards
`adjustIntervalBasedOnTime` runs in either case. -/
def syncCycle (cfg : SyncConfig) (s : SyncState) (inp : CycleInput) : SyncState :=
  let s' :=
    match inp.outcome with
    | .error => handleSyncError cfg s
    | .empty => { handleEmptyPoll cfg s with lastSyncTime := inp.now }
    | .records => { handleSuccessfulPoll cfg s with lastSyncTime := inp.now }
  adjustIntervalBasedOnTime cfg inp.hour s'

/-- Run a sequence of sync cycles. -/
def runCycles (cfg : SyncConfig) (s : SyncState) (inps : List CycleInput) : SyncState :=
  inps.foldl (syncCycle cfg) s

/-- The initial state of `OptimizedSyncService`: cursor from config, interval
at `baseInterval`, both counters zero. -/
def initialState (cfg : SyncConfig) (lastSyncTime : Nat) : SyncState :=
  ⟨lastSyncTime, cfg.baseInterval, 0, 0⟩

/-- The successive cursor values along a run, starting with the initial one. -/
def cursorTrace (cfg : SyncConfig) (s : SyncState) : List CycleInput → List Nat
  | [] => [s.lastSyncTime]
  | inp :: rest => s.lastSyncTime :: cursorTrace cfg (syncCycle cfg s inp) rest

/-- The wall clock is monotone: the cursor start and the successive
`currentTime` captures form a non-decreasing chain. -/
def clockMonotone (start : Nat) (inps : List CycleInput) : Prop :=
  List.Chain (· ≤ ·) start (inps.map CycleInput.now)

end Orchestrator

section OrchestratorLemmas

open Orchestrator

/-- Interval-bounds invariant used by the C1 proof. -/
def intervalInBounds (cfg : SyncConfig) (s : SyncState) : Prop :=
  cfg.minInterval ≤ s.currentInterval ∧ s.currentInterval ≤ cfg.maxInterval

/-- Sanity of the configuration: the bounds are ordered around the base, the
minimum is non-negative, and the backoff factor does not shrink intervals. -/
def configSane (cfg : SyncConfig) : Prop :=
  0 ≤ cfg.minInterval ∧ cfg.minInterval ≤ cfg.baseInterval ∧
    cfg.baseInterval ≤ cfg.maxInterval ∧ 1 ≤ cfg.backoffFactor

theorem handleEmptyPoll_bounds {cfg : SyncConfig} {s : SyncState}
    (hc : configSane cfg) (hs : intervalInBounds cfg s) :
    intervalInBounds cfg (handleEmptyPoll cfg s) := by
  obtain ⟨h0, hmb, hbM, hf⟩ := hc
  obtain ⟨hlo, hhi⟩ := hs
  unfold handleEmptyPoll
  dsimp only
  split
  · constructor
    · refine le_min (hmb.trans hbM) ?_
      calc cfg.minInterval ≤ s.currentInterval := hlo
        _ = s.currentInterval * 1 := by ring
        _ ≤ s.currentInterval * cfg.backoffFactor := by
            exact mul_le_mul_of_nonneg_left hf (h0.trans hlo)
    · exact min_le_left _ _
  · exact ⟨hlo, hhi⟩

theorem handleSuccessfulPoll_bounds {cfg : SyncConfig} {s : SyncState}
    (hc : configSane cfg) :
    intervalInBounds cfg (handleSuccessfulPoll cfg s) := by
  obtain ⟨h0, hmb, hbM, hf⟩ := hc
  exact ⟨hmb, hbM⟩

theorem handleSyncError_bounds {cfg : SyncConfig} {s : SyncState}
    (hc : configSane cfg) :
    intervalInBounds cfg (handleSyncError cfg s) := by
  obtain ⟨h0, hmb, hbM, hf⟩ := hc
  unfold handleSyncError
  refine ⟨le_min (hmb.trans hbM) ?_, min_le_left _ _⟩
  calc cfg.minInterval ≤ cfg.baseInterval := hmb
    _ = cfg.baseInterval * 1 := by ring
    _ ≤ cfg.baseInterval * cfg.backoffFactor ^ (s.consecutiveErrors + 1) := by
        refine mul_le_mul_of_nonneg_left (one_le_pow₀ hf) (h0.trans hmb)

theorem adjustIntervalBasedOnTime_bounds {cfg : SyncConfig} {s : SyncState} {hour : Nat}
    (hc : configSane cfg) (hs : intervalInBounds cfg s) :
    intervalInBounds cfg (adjustIntervalBasedOnTime cfg hour s) := by
  obtain ⟨h0, hmb, hbM, hf⟩ := hc
  obtain ⟨hlo, hhi⟩ := hs
  unfold adjustIntervalBasedOnTime
  split
  · refine ⟨le_max_left _ _, max_le (hmb.trans hbM) ?_⟩
    have hpos : 0 ≤ s.currentInterval := (h0.trans hlo)
    calc s.currentInterval / 2 ≤ s.currentInterval := by linarith
      _ ≤ cfg.maxInterval := hhi
  · exact ⟨hlo, hhi⟩

theorem syncCycle_bounds {cfg : SyncConfig} {s : SyncState} {inp : CycleInput}
    (hc : configSane cfg) (hs : intervalInBounds cfg s) :
    intervalInBounds cfg (syncCycle cfg s inp) := by
  unfold syncCycle
  refine adjustIntervalBasedOnTime_bounds hc ?_
  match h : inp.outcome with
  | .error => exact handleSyncError_bounds hc
  | .empty =>
      have := handleEmptyPoll_bounds hc hs
      exact this
  | .records =>
      have := handleSuccessfulPoll_bounds (s := s) hc
      exact this

theorem runCycles_bounds {cfg : SyncConfig} {s : SyncState}
    (hc : configSane cfg) (hs : intervalInBounds cfg s) :
    ∀ inps : List CycleInput, intervalInBounds cfg (runCycles cfg s inps) := by
  intro inps
  induction inps generalizing s with
  | nil => exact hs
  | cons inp rest ih => exact ih (syncCycle_bounds hc hs)

end OrchestratorLemmas

/-- C1: starting from `currentInterval = baseInterval` with
`minInterval ≤ baseInterval ≤ maxInterval` (and a sanely configured
non-negative minimum and backoff factor ≥ 1, as in the shipped
configuration), every update performed by `handleEmptyPoll`,
`handleSuccessfulPoll`, `handleSyncError` and `adjustIntervalBasedOnTime`
keeps `currentInterval` within `[minInterval, maxInterval]`, for every
sequence of cycle outcomes and every clock hour. -/
theorem c1_interval_stays_in_bounds (cfg : Orchestrator.SyncConfig) (cursor0 : Nat)
    (hc : configSane cfg) :
    (∀ s, intervalInBounds cfg s → intervalInBounds cfg (Orchestrator.handleEmptyPoll cfg s)) ∧
    (∀ s, intervalInBounds cfg (Orchestrator.handleSuccessfulPoll cfg s)) ∧
    (∀ s, intervalInBounds cfg (Orchestrator.handleSyncError cfg s)) ∧
    (∀ s hour, intervalInBounds cfg s →
      intervalInBounds cfg (Orchestrator.adjustIntervalBasedOnTime cfg hour s)) ∧
    (∀ inps : List Orchestrator.CycleInput,
      intervalInBounds cfg (Orchestrator.runCycles cfg (Orchestrator.initialState cfg cursor0) inps)) := by
  have hinit : intervalInBounds cfg (Orchestrator.initialState cfg cursor0) :=
    ⟨hc.2.1, hc.2.2.1⟩
  exact ⟨fun s hs => handleEmptyPoll_bounds hc hs,
    fun s => handleSuccessfulPoll_bounds hc,
    fun s => handleSyncError_bounds hc,
    fun s hour hs => adjustIntervalBasedOnTime_bounds hc hs,
    fun inps => runCycles_bounds hc hinit inps⟩

/-- Witness for C1 at a concrete configuration (the shipped defaults,
20s/120s/10s, factor 1.5) and a concrete cycle sequence. -/
theorem c1_interval_stays_in_bounds_witness :
    configSane ⟨20000, 120000, 10000, 5, 3 / 2⟩ ∧
      intervalInBounds ⟨20000, 120000, 10000, 5, 3 / 2⟩
        (Orchestrator.runCycles ⟨20000, 120000, 10000, 5, 3 / 2⟩
          (Orchestrator.initialState ⟨20000, 120000, 10000, 5, 3 / 2⟩ 0)
          [⟨10, 9, .error⟩, ⟨20, 9, .empty⟩, ⟨30, 12, .records⟩]) := by
  refine ⟨?_, ?_⟩
  · refine ⟨by norm_num, by norm_num, by norm_num, by norm_num⟩
  · exact (c1_interval_stays_in_bounds ⟨20000, 120000, 10000, 5, 3 / 2⟩ 0
      ⟨by norm_num, by norm_num, by norm_num, by norm_num⟩).2.2.2.2
      [⟨10, 9, .error⟩, ⟨20, 9, .empty⟩, ⟨30, 12, .records⟩]

section CursorLemmas

open Orchestrator

theorem adjustIntervalBasedOnTime_lastSyncTime (cfg : SyncConfig) (hour : Nat) (s : SyncState) :
    (adjustIntervalBasedOnTime cfg hour s).lastSyncTime = s.lastSyncTime := by
  unfold adjustIntervalBasedOnTime
  split <;> rfl

theorem adjustIntervalBasedOnTime_consecutiveErrors (cfg : SyncConfig) (hour : Nat) (s : SyncState) :
    (adjustIntervalBasedOnTime cfg hour s).consecutiveErrors = s.consecutiveErrors := by
  unfold adjustIntervalBasedOnTime
  split <;> rfl

theorem handleEmptyPoll_lastSyncTime (cfg : SyncConfig) (s : SyncState) :
    (handleEmptyPoll cfg s).lastSyncTime = s.lastSyncTime := by
  unfold handleEmptyPoll
  dsimp only
  split <;> rfl

theorem syncCycle_error_state (cfg : SyncConfig) (s : SyncState) (inp : CycleInput)
    (he : inp.outcome = .error) :
    (syncCycle cfg s inp).lastSyncTime = s.lastSyncTime ∧
      (syncCycle cfg s inp).consecutiveErrors = s.consecutiveErrors + 1 := by
  unfold syncCycle
  rw [he]
  constructor
  · rw [adjustIntervalBasedOnTime_lastSyncTime]
    rfl
  · rw [adjustIntervalBasedOnTime_consecutiveErrors]
    rfl

theorem syncCycle_cursor_bounds (cfg : SyncConfig) (s : SyncState) (inp : CycleInput)
    (h : s.lastSyncTime ≤ inp.now) :
    s.lastSyncTime ≤ (syncCycle cfg s inp).lastSyncTime ∧
      (syncCycle cfg s inp).lastSyncTime ≤ inp.now := by
  unfold syncCycle
  match ho : inp.outcome with
  | .error =>
      rw [adjustIntervalBasedOnTime_lastSyncTime]
      exact ⟨le_refl _, h⟩
  | .empty =>
      rw [adjustIntervalBasedOnTime_lastSyncTime]
      exact ⟨h, le_refl _⟩
  | .records =>
      rw [adjustIntervalBasedOnTime_lastSyncTime]
      exact ⟨h, le_refl _⟩

theorem chain_le_of_le {a b : Nat} {l : List Nat} (h : a ≤ b)
    (hc : List.Chain (· ≤ ·) b l) : List.Chain (· ≤ ·) a l := by
  cases hc with
  | nil => exact List.Chain.nil
  | cons hab hrest => exact List.Chain.cons (h.trans hab) hrest

theorem cursorTrace_chain (cfg : SyncConfig) :
    ∀ (inps : List CycleInput) (s : SyncState), clockMonotone s.lastSyncTime inps →
      List.Chain' (· ≤ ·) (cursorTrace cfg s inps) := by
  intro inps
  induction inps with
  | nil =>
      intro s _
      simp [cursorTrace]
  | cons inp rest ih =>
      intro s hmono
      unfold clockMonotone at hmono
      rw [List.map_cons] at hmono
      cases hmono with
      | cons hnow hrest =>
        have hcb := syncCycle_cursor_bounds cfg s inp hnow
        have hmono' : clockMonotone (syncCycle cfg s inp).lastSyncTime rest :=
          chain_le_of_le hcb.2 hrest
        have hchain := ih (syncCycle cfg s inp) hmono'
        show List.Chain' (· ≤ ·) (s.lastSyncTime :: cursorTrace cfg (syncCycle cfg s inp) rest)
        refine List.chain'_cons'.mpr ⟨?_, hchain⟩
        intro y hy
        have hhead : (cursorTrace cfg (syncCycle cfg s inp) rest).head? =
            some (syncCycle cfg s inp).lastSyncTime := by
          cases rest <;> rfl
        rw [hhead] at hy
        cases hy
        exact hcb.1

end CursorLemmas

/-- C2: across any sequence of cycles whose wall-clock captures are monotone,
the cursor `lastSyncTime` is non-decreasing (the successive cursor values
form a `≤`-chain); and on any cycle that ends in an uncaught error the cursor
is unchanged, the consecutive-error counter is incremented, and
`handleSyncError` applies the error backoff
`min(maxInterval, baseInterval * backoffFactor ^ errors)`. -/
theorem c2_cursor_monotone_and_error_cycle (cfg : Orchestrator.SyncConfig)
    (s0 : Orchestrator.SyncState) (inps : List Orchestrator.CycleInput)
    (hclock : Orchestrator.clockMonotone s0.lastSyncTime inps) :
    List.Chain' (· ≤ ·) (Orchestrator.cursorTrace cfg s0 inps) ∧
    (∀ (s : Orchestrator.SyncState) (inp : Orchestrator.CycleInput), inp.outcome = .error →
      (Orchestrator.syncCycle cfg s inp).lastSyncTime = s.lastSyncTime ∧
      (Orchestrator.syncCycle cfg s inp).consecutiveErrors = s.consecutiveErrors + 1 ∧
      (Orchestrator.handleSyncError cfg s).currentInterval =
        min cfg.maxInterval (cfg.baseInterval * cfg.backoffFactor ^ (s.consecutiveErrors + 1))) := by
  constructor
  · exact cursorTrace_chain cfg inps s0 hclock
  · intro s inp he
    obtain ⟨h1, h2⟩ := syncCycle_error_state cfg s inp he
    exact ⟨h1, h2, rfl⟩

/-- Witness for C2 at a concrete configuration and cycle sequence (one error
cycle, one empty, one with records, under a monotone clock). -/
theorem c2_cursor_monotone_and_error_cycle_witness :
    Orchestrator.clockMonotone 5 [⟨10, 9, .error⟩, ⟨20, 9, .empty⟩, ⟨30, 12, .records⟩] ∧
      List.Chain' (· ≤ ·)
        (Orchestrator.cursorTrace ⟨20000, 120000, 10000, 5, 3 / 2⟩ ⟨5, 20000, 0, 0⟩
          [⟨10, 9, .error⟩, ⟨20, 9, .empty⟩, ⟨30, 12, .records⟩]) := by
  have hm : Orchestrator.clockMonotone 5
      [⟨10, 9, .error⟩, ⟨20, 9, .empty⟩, ⟨30, 12, .records⟩] := by
    unfold Orchestrator.clockMonotone
    simp only [List.map]
    exact .cons (by norm_num) (.cons (by norm_num) (.cons (by norm_num) .nil))
  exact ⟨hm, (c2_cursor_monotone_and_error_cycle ⟨20000, 120000, 10000, 5, 3 / 2⟩
      ⟨5, 20000, 0, 0⟩ [⟨10, 9, .error⟩, ⟨20, 9, .empty⟩, ⟨30, 12, .records⟩] hm).1⟩

section ErrorBackoffLemmas

open Orchestrator

theorem handleSyncError_iterate_errors (cfg : SyncConfig) (s : SyncState) :
    ∀ k : Nat, ((handleSyncError cfg)^[k] s).consecutiveErrors = s.consecutiveErrors + k := by
  intro k
  induction k with
  | zero => rfl
  | succ j ih =>
      rw [Function.iterate_succ_apply']
      show ((handleSyncError cfg)^[j] s).consecutiveErrors + 1 = s.consecutiveErrors + (j + 1)
      omega

end ErrorBackoffLemmas

/-- C3: after the k-th consecutive cycle error (k ≥ 1, starting from an error
counter of zero), the interval computed by `handleSyncError` equals exactly
`min(maxInterval, baseInterval * backoffFactor ^ k)`, for any configured
base, maximum and backoff factor. -/
theorem c3_error_backoff_formula (cfg : Orchestrator.SyncConfig)
    (s0 : Orchestrator.SyncState) (k : Nat) (hk : 1 ≤ k)
    (h0 : s0.consecutiveErrors = 0) :
    ((Orchestrator.handleSyncError cfg)^[k] s0).consecutiveErrors = k ∧
    ((Orchestrator.handleSyncError cfg)^[k] s0).currentInterval =
      min cfg.maxInterval (cfg.baseInterval * cfg.backoffFactor ^ k) := by
  constructor
  · rw [handleSyncError_iterate_errors, h0, Nat.zero_add]
  · obtain ⟨j, rfl⟩ : ∃ j, k = j + 1 := ⟨k - 1, by omega⟩
    rw [Function.iterate_succ_apply']
    show min cfg.maxInterval (cfg.baseInterval * cfg.backoffFactor ^
        (((Orchestrator.handleSyncError cfg)^[j] s0).consecutiveErrors + 1)) = _
    rw [handleSyncError_iterate_errors, h0, Nat.zero_add]

/-- Witness for C3 at the shipped configuration with k = 3 errors. -/
theorem c3_error_backoff_formula_witness :
    (1 ≤ 3 ∧ (⟨0, 20000, 0, 0⟩ : Orchestrator.SyncState).consecutiveErrors = 0) ∧
      ((Orchestrator.handleSyncError ⟨20000, 120000, 10000, 5, 3 / 2⟩)^[3]
          (⟨0, 20000, 0, 0⟩ : Orchestrator.SyncState)).currentInterval =
        min (120000 : ℚ) (20000 * (3 / 2) ^ 3) :=
  ⟨⟨by norm_num, rfl⟩,
    (c3_error_backoff_formula ⟨20000, 120000, 10000, 5, 3 / 2⟩ ⟨0, 20000, 0, 0⟩ 3
      (by norm_num) rfl).2⟩

namespace HealthMonitor

/-- The slice of `HealthMonitor.metrics` consulted by `isHealthy`. -/
structure Metrics where
  totalSyncCycles : Nat
  successfulSyncs : Nat
  failedSyncs : Nat
deriving DecidableEq

/-- The `HealthMonitor` constructor zeroes all counters. -/
def initialMetrics : Metrics := ⟨0, 0, 0⟩

/-- `HealthMonitor.isHealthy`: healthy iff heap usage is below the configured
memory threshold AND `failedSyncs < totalSyncCycles * 0.5`.  The memory
percentage and threshold are inputs (they come from `process.memoryUsage()`
and `config.performance.memoryThreshold`). -/
def isHealthy (m : Metrics) (memoryPercentage memoryThreshold : ℚ) : Bool :=
  decide (memoryPercentage < memoryThreshold * 100) &&
    decide ((m.failedSyncs : ℚ) < (m.totalSyncCycles : ℚ) * (1 / 2))

/-- The `status` field of `HealthMonitor.getHealthStatus`. -/
def healthStatusField (m : Metrics) (memoryPercentage memoryThreshold : ℚ) : String :=
  if isHealthy m memoryPercentage memoryThreshold then "healthy" else "degraded"

end HealthMonitor

/-- C10: with no sync cycle recorded yet (the constructor's all-zero metrics)
the failure-rate check `failedSyncs < totalSyncCycles * 0.5` is `0 < 0`,
which is false, so `isHealthy()` is false and `getHealthStatus()` reports
status "degraded" regardless of memory usage or threshold. -/
theorem c10_degraded_at_startup :
    ∀ memoryPercentage memoryThreshold : ℚ,
      HealthMonitor.isHealthy HealthMonitor.initialMetrics memoryPercentage memoryThreshold
          = false ∧
        HealthMonitor.healthStatusField HealthMonitor.initialMetrics memoryPercentage
            memoryThreshold = "degraded" := by
  intro memPct thr
  have h : HealthMonitor.isHealthy HealthMonitor.initialMetrics memPct thr = false := by
    simp [HealthMonitor.isHealthy, HealthMonitor.initialMetrics]
  exact ⟨h, by unfold HealthMonitor.healthStatusField; rw [h]; rfl⟩

namespace ZohoOAuth

/-- Token state held by `ZohoOAuthService` instance variables `accessToken`,
`refreshToken`, `tokenExpiresAt` (expiry as epoch milliseconds; `none`
models a null/absent value). -/
structure TokenState where
  accessToken : Option String
  refreshToken : Option String
  tokenExpiresAt : Option Int
deriving DecidableEq

/-- The hard-coded 5-minute expiry buffer of `isTokenValid`
(`bufferTime = 5 * 60 * 1000`). -/
def bufferTime : Int := 5 * 60 * 1000

/-- `ZohoOAuthService.isTokenValid`: false without an access token, true if
no expiry is recorded ("Assume valid if no expiration time"), otherwise
`currentTime < expirationTime - bufferTime`. -/
def isTokenValid (s : TokenState) (now : Int) : Bool :=
  match s.accessToken with
  | none => false
  | some _ =>
    match s.tokenExpiresAt with
    | none => true
    | some expiresAt => decide (now < expiresAt - bufferTime)

/-- Outcome of the network round-trip performed by `refreshAccessToken`:
either a body carrying `access_token` and `expires_in` (seconds), or any
failure (network error, non-2xx, missing `access_token`). -/
inductive RefreshResponse where
  | ok (accessToken : String) (expiresIn : Int)
  | failure
deriving DecidableEq

/-- `ZohoOAuthService.refreshAccessToken`: fails when no refresh token is
held; otherwise posts the refresh request and on success stores the new
access token with expiry `now + expiresIn * 1000` (the refresh token is
kept).  Returns the new token and updated state. -/
def refreshAccessToken (s : TokenState) (now : Int) (resp : RefreshResponse) :
    Except String (String × TokenState) :=
  match s.refreshToken with
  | none => .error "No refresh token available. Please re-authorize."
  | some _ =>
    match resp with
    | .ok tok expiresIn =>
        .ok (tok, { s with accessToken := some tok, tokenExpiresAt := some (now + expiresIn * 1000) })
    | .failure => .error "refresh request failed"

/-- Result of one `getValidAccessToken` call: the returned token or thrown
error, the instance state afterwards, and whether a refresh network call was
made. -/
structure GetTokenResult where
  result : Except String String
  state : TokenState
  refreshCalled : Bool

/-- `ZohoOAuthService.getValidAccessToken`: return the held token while
`isTokenValid`; otherwise, if a refresh token is held, perform a refresh and
return its token (mapping a refresh failure to a thrown error); otherwise
throw. -/
def getValidAccessToken (s : TokenState) (now : Int) (resp : RefreshResponse) :
    GetTokenResult :=
  if isTokenValid s now then
    ⟨.ok (s.accessToken.getD ""), s, false⟩
  else
    match s.refreshToken with
    | some _ =>
      match refreshAccessToken s now resp with
      | .ok (tok, s') => ⟨.ok tok, s', true⟩
      | .error _ => ⟨.error "Token refresh failed. Please re-authorize.", s, true⟩
    | none => ⟨.error "No valid access token available. Please authorize first.", s, false⟩

/-- The guarantee C4 claims of `getValidAccessToken`: whenever it returns a
token, the expiry recorded for that token (in the resulting state) is more
than the safety buffer away from `now`. -/
def neverWithinBuffer : Prop :=
  ∀ (s : TokenState) (now : Int) (resp : RefreshResponse) (tok : String) (expiresAt : Int),
    (getValidAccessToken s now resp).result = .ok tok →
    (getValidAccessToken s now resp).state.tokenExpiresAt = some expiresAt →
    now < expiresAt - bufferTime

end ZohoOAuth

/-- C4 counterexample: with an expired token and a refresh token held, a
refresh whose `expires_in` is 60 seconds succeeds and the refreshed token is
handed out although its recorded expiry (now + 60000 ms) is inside the
5-minute safety buffer.  So `getValidAccessToken` does not guarantee
`now < expiry - buffer` for every token it returns. -/
theorem c4_counterexample_refresh_inside_buffer :
    (ZohoOAuth.getValidAccessToken ⟨some "old", some "refresh", some (-1000)⟩ 0
        (.ok "fresh" 60)).result = .ok "fresh" ∧
    (ZohoOAuth.getValidAccessToken ⟨some "old", some "refresh", some (-1000)⟩ 0
        (.ok "fresh" 60)).state.tokenExpiresAt = some 60000 ∧
    ¬((0 : Int) < 60000 - ZohoOAuth.bufferTime) ∧
    ¬ZohoOAuth.neverWithinBuffer := by
  have h1 : (ZohoOAuth.getValidAccessToken ⟨some "old", some "refresh", some (-1000)⟩ 0
      (.ok "fresh" 60)).result = .ok "fresh" := rfl
  have h2 : (ZohoOAuth.getValidAccessToken ⟨some "old", some "refresh", some (-1000)⟩ 0
      (.ok "fresh" 60)).state.tokenExpiresAt = some 60000 := rfl
  refine ⟨h1, h2, by decide, fun h => ?_⟩
  have hc := h ⟨some "old", some "refresh", some (-1000)⟩ 0 (.ok "fresh" 60) "fresh" 60000 h1 h2
  unfold ZohoOAuth.bufferTime at hc
  omega

/-- C4 as amended: the validity fast path of `getValidAccessToken` respects
the safety buffer — whenever the cached token is handed out because
`isTokenValid` held and an expiry is recorded, `now < expiry - buffer`; the
cached token is returned unchanged.  (Tokens freshly obtained through the
refresh path, and cached tokens with no recorded expiry, are returned
without any buffer check.) -/
theorem c4_buffer_respected_on_valid_path (s : ZohoOAuth.TokenState) (now : Int)
    (resp : ZohoOAuth.RefreshResponse) (expiresAt : Int)
    (hvalid : ZohoOAuth.isTokenValid s now = true)
    (hexp : s.tokenExpiresAt = some expiresAt) :
    now < expiresAt - ZohoOAuth.bufferTime ∧
      (ZohoOAuth.getValidAccessToken s now resp).result = .ok (s.accessToken.getD "") ∧
      (ZohoOAuth.getValidAccessToken s now resp).state = s := by
  refine ⟨?_, ?_, ?_⟩
  · unfold ZohoOAuth.isTokenValid at hvalid
    match ha : s.accessToken with
    | none => rw [ha] at hvalid; exact absurd hvalid (by simp)
    | some tok =>
        rw [ha, hexp] at hvalid
        exact of_decide_eq_true hvalid
  · unfold ZohoOAuth.getValidAccessToken
    rw [hvalid]
    rfl
  · unfold ZohoOAuth.getValidAccessToken
    rw [hvalid]
    rfl

/-- Witness for the amended C4 at a concrete state: token expiring at
10^7 ms, queried at time 0. -/
theorem c4_buffer_respected_on_valid_path_witness :
    ZohoOAuth.isTokenValid ⟨some "tok", some "refresh", some 10000000⟩ 0 = true ∧
      (⟨some "tok", some "refresh", some 10000000⟩ : ZohoOAuth.TokenState).tokenExpiresAt
          = some 10000000 ∧
      (0 : Int) < 10000000 - ZohoOAuth.bufferTime :=
  ⟨by decide, rfl,
    (c4_buffer_respected_on_valid_path ⟨some "tok", some "refresh", some 10000000⟩ 0
      .failure 10000000 (by decide) rfl).1⟩

namespace ZohoOAuth

/-- Progress of one async `getValidAccessToken()` caller.  JavaScript is
single-threaded: a caller runs synchronously from its invocation up to the
first `await` inside `refreshAccessToken` (the axios token request), where
it suspends; the response resumes it. -/
inductive CallerPhase where
  | start
  | awaitingRefresh
  | done (res : Except String String)

/-- Shared state of a `ZohoOAuthService` instance together with the phases
of its concurrent callers and a count of the refresh network requests that
have been issued. -/
structure RaceState where
  tok : TokenState
  callers : List CallerPhase
  refreshNetworkCalls : Nat

/-- One scheduler event: `run i` lets caller `i` execute from its invocation
to its first suspension point (or completion), `resolve i resp` delivers the
refresh response to a caller suspended in `refreshAccessToken`. -/
inductive RaceEvent where
  | run (i : Nat)
  | resolve (i : Nat) (resp : RefreshResponse)

/-- Interleaving semantics of concurrent `getValidAccessToken()` calls
against the shared instance state, exactly as the code reads and writes it:
`run` performs the synchronous `isTokenValid` check and, when it fails with
a refresh token held, issues the refresh network request (there is no
guard against a refresh already being in flight); `resolve` applies the
response the way `refreshAccessToken` does. -/
def raceStep (now : Int) (st : RaceState) (e : RaceEvent) : RaceState :=
  match e with
  | .run i =>
    match st.callers[i]? with
    | some .start =>
      if isTokenValid st.tok now then
        { st with callers := st.callers.set i (.done (.ok (st.tok.accessToken.getD ""))) }
      else
        match st.tok.refreshToken with
        | some _ =>
            { st with callers := st.callers.set i .awaitingRefresh,
                      refreshNetworkCalls := st.refreshNetworkCalls + 1 }
        | none =>
            let cs := st.callers.set i (.done (.error "No valid access token available. Please authorize first."))
            { st with callers := cs }
    | _ => st
  | .resolve i resp =>
    match st.callers[i]? with
    | some .awaitingRefresh =>
      match resp with
      | .ok tok expiresIn =>
          let newTok := { st.tok with accessToken := some tok, tokenExpiresAt := some (now + expiresIn * 1000) }
          let cs := st.callers.set i (.done (.ok tok))
          { st with tok := newTok, callers := cs }
      | .failure =>
          let cs := st.callers.set i (.done (.error "Token refresh failed. Please re-authorize."))
          { st with callers := cs }
    | _ => st

/-- Run a schedule of events. -/
def runRace (now : Int) (st : RaceState) (events : List RaceEvent) : RaceState :=
  events.foldl (raceStep now) st

/-- `n` concurrent callers, all newly invoked. -/
def initRace (tok : TokenState) (n : Nat) : RaceState :=
  ⟨tok, List.replicate n .start, 0⟩

end ZohoOAuth

section RaceLemmas

open ZohoOAuth

theorem raceStep_run_start (now : Int) (tok : TokenState) (pre suf : List CallerPhase)
    (calls : Nat) (hinvalid : isTokenValid tok now = false) (rt : String)
    (hrt : tok.refreshToken = some rt) :
    raceStep now ⟨tok, pre ++ .start :: suf, calls⟩ (.run pre.length) =
      ⟨tok, pre ++ .awaitingRefresh :: suf, calls + 1⟩ := by
  have hget : (pre ++ CallerPhase.start :: suf)[pre.length]? = some .start := by
    rw [List.getElem?_append_right (Nat.le_refl _)]
    simp
  simp only [raceStep]
  rw [hget]
  rw [hinvalid]
  rw [hrt]
  rw [List.set_append_right _ _ (Nat.le_refl _)]
  simp

theorem runRace_all_run (now : Int) (tok : TokenState)
    (hinvalid : isTokenValid tok now = false) (rt : String)
    (hrt : tok.refreshToken = some rt) :
    ∀ (k : Nat) (pre : List CallerPhase) (calls : Nat),
      runRace now ⟨tok, pre ++ List.replicate k .start, calls⟩
          ((List.range k).map (fun j => .run (pre.length + j))) =
        ⟨tok, pre ++ List.replicate k .awaitingRefresh, calls + k⟩ := by
  intro k
  induction k with
  | zero => intro pre calls; simp [runRace]
  | succ m ih =>
      intro pre calls
      rw [List.range_succ_eq_map, List.map_cons]
      unfold runRace
      rw [List.foldl_cons]
      have hstep : raceStep now ⟨tok, pre ++ List.replicate (m + 1) .start, calls⟩
          (.run (pre.length + 0)) =
          ⟨tok, (pre ++ [.awaitingRefresh]) ++ List.replicate m .start, calls + 1⟩ := by
        rw [List.replicate_succ]
        rw [Nat.add_zero]
        rw [raceStep_run_start now tok pre (List.replicate m .start) calls hinvalid rt hrt]
        simp
      rw [hstep]
      have hmap : (List.map (fun j => RaceEvent.run (pre.length + j))
            (List.map Nat.succ (List.range m))) =
          (List.range m).map (fun j => .run ((pre ++ [CallerPhase.awaitingRefresh]).length + j)) := by
        rw [List.map_map]
        refine List.map_congr_left ?_
        intro j _
        simp only [Function.comp]
        have : pre.length + Nat.succ j = (pre ++ [CallerPhase.awaitingRefresh]).length + j := by
          simp
          omega
        rw [this]
      rw [hmap]
      have := ih (pre ++ [.awaitingRefresh]) (calls + 1)
      unfold runRace at this
      rw [this]
      rw [List.append_assoc, List.singleton_append, ← List.replicate_succ]
      have harith : calls + 1 + m = calls + (m + 1) := by omega
      rw [harith]

end RaceLemmas

/-- C5 counterexample: with an expired token and a refresh token held, two
concurrent `getValidAccessToken()` calls that both pass the `isTokenValid`
check before either refresh response arrives issue TWO refresh network
requests, and the two callers receive different tokens (each its own
response's token) — not one single-flight refresh shared by all callers. -/
theorem c5_counterexample_two_refreshes :
    (ZohoOAuth.runRace 1000000000 (ZohoOAuth.initRace ⟨some "old", some "r", some 0⟩ 2)
        [.run 0, .run 1, .resolve 0 (.ok "n1" 3600), .resolve 1 (.ok "n2" 3600)]
      ).refreshNetworkCalls = 2 ∧
    (ZohoOAuth.runRace 1000000000 (ZohoOAuth.initRace ⟨some "old", some "r", some 0⟩ 2)
        [.run 0, .run 1, .resolve 0 (.ok "n1" 3600), .resolve 1 (.ok "n2" 3600)]
      ).callers[0]? = some (.done (.ok "n1")) ∧
    (ZohoOAuth.runRace 1000000000 (ZohoOAuth.initRace ⟨some "old", some "r", some 0⟩ 2)
        [.run 0, .run 1, .resolve 0 (.ok "n1" 3600), .resolve 1 (.ok "n2" 3600)]
      ).callers[1]? = some (.done (.ok "n2")) ∧
    ¬((ZohoOAuth.runRace 1000000000 (ZohoOAuth.initRace ⟨some "old", some "r", some 0⟩ 2)
        [.run 0, .run 1, .resolve 0 (.ok "n1" 3600), .resolve 1 (.ok "n2" 3600)]
      ).refreshNetworkCalls = 1) ∧
    "n1" ≠ "n2" := by
  refine ⟨by rfl, by rfl, by rfl, ?_, by decide⟩
  intro h
  have h2 : (ZohoOAuth.runRace 1000000000 (ZohoOAuth.initRace ⟨some "old", some "r", some 0⟩ 2)
        [.run 0, .run 1, .resolve 0 (.ok "n1" 3600), .resolve 1 (.ok "n2" 3600)]
      ).refreshNetworkCalls = 2 := by rfl
  rw [h] at h2
  exact absurd h2 (by decide)

/-- C5 as amended: there is no single-flight guard — for every n, n
concurrent `getValidAccessToken()` calls that all perform their validity
check while the (invalid) token has not yet been replaced each issue their
own refresh network request: exactly n refresh calls, one per caller. -/
theorem c5_each_caller_refreshes (tok : ZohoOAuth.TokenState) (now : Int) (n : Nat)
    (rt : String) (hinvalid : ZohoOAuth.isTokenValid tok now = false)
    (hrt : tok.refreshToken = some rt) :
    ZohoOAuth.runRace now (ZohoOAuth.initRace tok n)
        ((List.range n).map (fun j => .run j)) =
      ⟨tok, List.replicate n .awaitingRefresh, n⟩ := by
  have := runRace_all_run now tok hinvalid rt hrt n [] 0
  simpa using this

/-- Witness for the amended C5 with three concurrent callers. -/
theorem c5_each_caller_refreshes_witness :
    ZohoOAuth.isTokenValid ⟨some "old", some "r", some 0⟩ 1000000000 = false ∧
      (⟨some "old", some "r", some 0⟩ : ZohoOAuth.TokenState).refreshToken = some "r" ∧
      (ZohoOAuth.runRace 1000000000 (ZohoOAuth.initRace ⟨some "old", some "r", some 0⟩ 3)
          ((List.range 3).map (fun j => .run j))).refreshNetworkCalls = 3 := by
  refine ⟨by decide, rfl, ?_⟩
  rw [c5_each_caller_refreshes ⟨some "old", some "r", some 0⟩ 1000000000 3 "r"
    (by decide) rfl]

namespace ZohoSvc

/-- What the axios POST inside `ZohoService.sendAttendance` observes: a
non-throwing response with a status, or a thrown error carrying an optional
response status, an optional `Retry-After` header (seconds), and an optional
structured Zoho error payload `{code, message}`.  `err none _ _` is a
network-level error (no response at all). -/
inductive HttpOutcome where
  | ok (status : Nat)
  | err (status : Option Nat) (retryAfter : Option Nat) (payloadErr : Option (Nat × String))
deriving DecidableEq

/-- Environment of one attempt: the refresh response the token manager would
get if it refreshes, and the HTTP outcome of the attendance POST. -/
structure AttemptInput where
  refreshResp : ZohoOAuth.RefreshResponse
  http : HttpOutcome

/-- Classification produced by `ZohoService.handleZohoError` (the returned
message, structurally). -/
inductive ZohoErrKind where
  | zohoPayload (code : Nat) (msg : String)
  | rateLimited (retryAfter : Option Nat)
  | authFailed
  | forbidden
  | notFound
  | serverError (status : Nat)
  | httpOther (status : Nat)
  | unexpectedStatus (status : Nat)
  | network
  | requestErr (msg : String)
deriving DecidableEq

/-- Instance state of `ZohoService`: request/failure counters, the
`rateLimitReset` cell, and the owned `ZohoOAuthService` token state. -/
structure SvcState where
  requestCount : Nat
  failedRequests : Nat
  rateLimitReset : Option Int
  tok : ZohoOAuth.TokenState
deriving DecidableEq

/-- `ZohoService.handleZohoError` for a thrown error with a response:
structured payload errors win; then 429 records
`rateLimitReset = now + retryAfter * 1000` when the header is present;
then 401/403/404/5xx/other; no response at all is a network error. -/
def handleZohoError (now : Int) (st : SvcState) (status : Option Nat)
    (retryAfter : Option Nat) (payloadErr : Option (Nat × String)) :
    ZohoErrKind × SvcState :=
  match status with
  | some s =>
    match payloadErr with
    | some (c, m) => (.zohoPayload c m, st)
    | none =>
      if s = 429 then
        match retryAfter with
        | some ra => (.rateLimited (some ra), { st with rateLimitReset := some (now + (ra : Int) * 1000) })
        | none => (.rateLimited none, st)
      else if s = 401 then (.authFailed, st)
      else if s = 403 then (.forbidden, st)
      else if s = 404 then (.notFound, st)
      else if 500 ≤ s then (.serverError s, st)
      else (.httpOther s, st)
  | none => (.network, st)

/-- `ZohoService.shouldRetry`: retry on errors with no response (network) and
on 5xx or 429 statuses; every other status — including 401 — is not
retried. -/
def shouldRetry (status : Option Nat) : Bool :=
  match status with
  | none => true
  | some s => decide (500 ≤ s) || decide (s = 429)

/-- `ZohoService.calculateBackoff`: `min(rateLimitDelay * 2^retryCount,
30000)`. -/
def calculateBackoff (rateLimitDelay retryCount : Nat) : Nat :=
  min (rateLimitDelay * 2 ^ retryCount) 30000

/-- Result of a `sendAttendance` call: the `{success, error}` object it
resolves with, the instance state afterwards, and instrumentation — number
of attempts made, refresh network calls issued by the token manager, and the
backoff delays awaited. -/
structure SendOutcome where
  success : Bool
  errKind : Option ZohoErrKind
  state : SvcState
  attempts : Nat
  refreshCalls : Nat
  delays : List Nat

/-- `ZohoService.sendAttendance(punchData, retryCount)`: bump `requestCount`,
obtain a token via `getValidAccessToken` (a failure there is caught by the
catch block as a responseless error, hence retryable), POST, then: 200 →
success; other non-throwing status → recorded failure; thrown error →
`failedRequests++`, classify via `handleZohoError`, and if `shouldRetry`
and `retryCount < config.zoho.maxRetries`, await `calculateBackoff` and
recurse on the same event.  The script supplies one `AttemptInput` per
attempt; `none` means the script was too short. -/
def sendAttendance (maxRetries rateLimitDelay : Nat) (now : Int) :
    Nat → SvcState → List AttemptInput → Option SendOutcome
  | _, _, [] => none
  | retryCount, st, inp :: rest =>
    let st1 : SvcState := { st with requestCount := st.requestCount + 1 }
    let gv := ZohoOAuth.getValidAccessToken st1.tok now inp.refreshResp
    let refreshInc := if gv.refreshCalled then 1 else 0
    let st2 : SvcState := { st1 with tok := gv.state }
    match gv.result with
    | .error m =>
      let st3 : SvcState := { st2 with failedRequests := st2.failedRequests + 1 }
      if retryCount < maxRetries then
        match sendAttendance maxRetries rateLimitDelay now (retryCount + 1) st3 rest with
        | some o => some { o with attempts := o.attempts + 1, refreshCalls := o.refreshCalls + refreshInc, delays := calculateBackoff rateLimitDelay retryCount :: o.delays }
        | none => none
      else
        some ⟨false, some (.requestErr m), st3, 1, refreshInc, []⟩
    | .ok _ =>
      match inp.http with
      | .ok status =>
        if status = 200 then
          some ⟨true, none, st2, 1, refreshInc, []⟩
        else
          let st3 : SvcState := { st2 with failedRequests := st2.failedRequests + 1 }
          some ⟨false, some (.unexpectedStatus status), st3, 1, refreshInc, []⟩
      | .err status retryAfter payloadErr =>
        let st3 : SvcState := { st2 with failedRequests := st2.failedRequests + 1 }
        let hk := handleZohoError now st3 status retryAfter payloadErr
        if shouldRetry status ∧ retryCount < maxRetries then
          match sendAttendance maxRetries rateLimitDelay now (retryCount + 1) hk.2 rest with
          | some o => some { o with attempts := o.attempts + 1, refreshCalls := o.refreshCalls + refreshInc, delays := calculateBackoff rateLimitDelay retryCount :: o.delays }
          | none => none
        else
          some ⟨false, some hk.1, hk.2, 1, refreshInc, []⟩

/-- A token state that is locally valid at time 0 (expiry well past the
buffer). -/
def validTok : ZohoOAuth.TokenState := ⟨some "t", some "r", some 1000000000⟩

/-- Fresh service state with a locally valid token. -/
def freshState : SvcState := ⟨0, 0, none, validTok⟩

end ZohoSvc

theorem getValidAccessToken_of_valid (s : ZohoOAuth.TokenState) (now : Int)
    (resp : ZohoOAuth.RefreshResponse) (hval : ZohoOAuth.isTokenValid s now = true) :
    ZohoOAuth.getValidAccessToken s now resp =
      ⟨.ok (s.accessToken.getD ""), s, false⟩ := by
  unfold ZohoOAuth.getValidAccessToken
  rw [hval]
  rfl

/-- C6 counterexample: with a locally valid token, the sink responding 401
and then 200 does NOT lead to a refresh-and-retry — `shouldRetry` excludes
401, so `sendAttendance` stops after one attempt, reports a failure, and
records zero refresh calls (not success with exactly one refresh). -/
theorem c6_counterexample_401_not_retried :
    ZohoSvc.sendAttendance 3 100 0 0 ZohoSvc.freshState
        [⟨.failure, .err (some 401) none none⟩, ⟨.failure, .ok 200⟩] =
      some ⟨false, some .authFailed, ⟨1, 1, none, ZohoSvc.validTok⟩, 1, 0, []⟩ ∧
    (ZohoSvc.sendAttendance 3 100 0 0 ZohoSvc.freshState
        [⟨.failure, .err (some 401) none none⟩, ⟨.failure, .ok 200⟩]).map
        ZohoSvc.SendOutcome.success = some false ∧
    (ZohoSvc.sendAttendance 3 100 0 0 ZohoSvc.freshState
        [⟨.failure, .err (some 401) none none⟩, ⟨.failure, .ok 200⟩]).map
        ZohoSvc.SendOutcome.refreshCalls = some 0 ∧
    ¬((ZohoSvc.sendAttendance 3 100 0 0 ZohoSvc.freshState
        [⟨.failure, .err (some 401) none none⟩, ⟨.failure, .ok 200⟩]).map
        ZohoSvc.SendOutcome.success = some true ∧
      (ZohoSvc.sendAttendance 3 100 0 0 ZohoSvc.freshState
        [⟨.failure, .err (some 401) none none⟩, ⟨.failure, .ok 200⟩]).map
        ZohoSvc.SendOutcome.refreshCalls = some 1) := by
  refine ⟨by rfl, by rfl, by rfl, ?_⟩
  intro h
  have h1 : (ZohoSvc.sendAttendance 3 100 0 0 ZohoSvc.freshState
      [⟨.failure, .err (some 401) none none⟩, ⟨.failure, .ok 200⟩]).map
      ZohoSvc.SendOutcome.success = some false := by rfl
  rw [h.1] at h1
  exact absurd h1 (by decide)

/-- C6 as amended: when the sink responds 401 to a dispatched event (and the
held token is locally valid, with no structured error payload), the sink
client performs NO token refresh and NO retry of the event: the call returns
after a single attempt with a classified auth failure, zero refresh calls,
and `failedRequests` incremented by one. -/
theorem c6_401_single_attempt_no_refresh (maxRetries rateLimitDelay : Nat) (now : Int)
    (st : ZohoSvc.SvcState) (rr : ZohoOAuth.RefreshResponse) (ra : Option Nat)
    (rc : Nat) (rest : List ZohoSvc.AttemptInput)
    (hval : ZohoOAuth.isTokenValid st.tok now = true) :
    ZohoSvc.sendAttendance maxRetries rateLimitDelay now rc st
        (⟨rr, .err (some 401) ra none⟩ :: rest) =
      some ⟨false, some .authFailed,
        { st with requestCount := st.requestCount + 1, failedRequests := st.failedRequests + 1 },
        1, 0, []⟩ := by
  have hgv := getValidAccessToken_of_valid st.tok now rr hval
  simp only [ZohoSvc.sendAttendance]
  rw [hgv]
  rfl

/-- Witness for the amended C6: fresh state, one 401 response. -/
theorem c6_401_single_attempt_no_refresh_witness :
    ZohoOAuth.isTokenValid ZohoSvc.freshState.tok 0 = true ∧
      ZohoSvc.sendAttendance 3 100 0 0 ZohoSvc.freshState
          [⟨.failure, .err (some 401) none none⟩] =
        some ⟨false, some .authFailed, ⟨1, 1, none, ZohoSvc.validTok⟩, 1, 0, []⟩ :=
  ⟨by decide, c6_401_single_attempt_no_refresh 3 100 0 ZohoSvc.freshState .failure none 0 []
    (by decide)⟩

/-- C7 counterexample: the sink responding 429 with `Retry-After: 30` and
then 200 IS automatically retried within the same `sendAttendance` call —
two attempts occur (with a backoff delay), the event ends in success, and
the 30-second hint is recorded in `rateLimitReset` (30000 ms past `now`).
So the client does not refrain from auto-retrying the event. -/
theorem c7_counterexample_429_is_retried :
    ZohoSvc.sendAttendance 3 100 0 0 ZohoSvc.freshState
        [⟨.failure, .err (some 429) (some 30) none⟩, ⟨.failure, .ok 200⟩] =
      some ⟨true, none, ⟨2, 1, some 30000, ZohoSvc.validTok⟩, 2, 0, [100]⟩ ∧
    (ZohoSvc.sendAttendance 3 100 0 0 ZohoSvc.freshState
        [⟨.failure, .err (some 429) (some 30) none⟩, ⟨.failure, .ok 200⟩]).map
        ZohoSvc.SendOutcome.attempts = some 2 ∧
    ¬((ZohoSvc.sendAttendance 3 100 0 0 ZohoSvc.freshState
        [⟨.failure, .err (some 429) (some 30) none⟩, ⟨.failure, .ok 200⟩]).map
        ZohoSvc.SendOutcome.attempts = some 1) := by
  refine ⟨by rfl, by rfl, ?_⟩
  intro h
  have h1 : (ZohoSvc.sendAttendance 3 100 0 0 ZohoSvc.freshState
      [⟨.failure, .err (some 429) (some 30) none⟩, ⟨.failure, .ok 200⟩]).map
      ZohoSvc.SendOutcome.attempts = some 2 := by rfl
  rw [h] at h1
  exact absurd h1 (by decide)

/-- C7 as amended: on a 429 with a `Retry-After` hint (token locally valid,
no structured payload error, retries not yet exhausted) the sink client
records the hint — `rateLimitReset := now + retryAfter * 1000` — and then
AUTOMATICALLY retries the same event after the exponential backoff delay
`calculateBackoff(retryCount)`: the call continues as a recursive attempt
with the incremented retry counter. -/
theorem c7_429_records_hint_and_retries (maxRetries rateLimitDelay : Nat) (now : Int)
    (st : ZohoSvc.SvcState) (rr : ZohoOAuth.RefreshResponse) (ra : Nat)
    (rc : Nat) (rest : List ZohoSvc.AttemptInput)
    (hval : ZohoOAuth.isTokenValid st.tok now = true) (hrc : rc < maxRetries) :
    ZohoSvc.sendAttendance maxRetries rateLimitDelay now rc st
        (⟨rr, .err (some 429) (some ra) none⟩ :: rest) =
      (match ZohoSvc.sendAttendance maxRetries rateLimitDelay now (rc + 1)
          { st with requestCount := st.requestCount + 1, failedRequests := st.failedRequests + 1, rateLimitReset := some (now + (ra : Int) * 1000) } rest with
       | some o => some { o with attempts := o.attempts + 1, delays := ZohoSvc.calculateBackoff rateLimitDelay rc :: o.delays }
       | none => none) := by
  have hgv := getValidAccessToken_of_valid st.tok now rr hval
  simp only [ZohoSvc.sendAttendance]
  rw [hgv]
  show (if ZohoSvc.shouldRetry (some 429) ∧ rc < maxRetries then _ else _) = _
  rw [if_pos ⟨rfl, hrc⟩]
  rfl

/-- Witness for the amended C7: fresh state, 429 then 200, retry budget 3. -/
theorem c7_429_records_hint_and_retries_witness :
    (ZohoOAuth.isTokenValid ZohoSvc.freshState.tok 0 = true ∧ 0 < 3) ∧
      ZohoSvc.sendAttendance 3 100 0 0 ZohoSvc.freshState
          [⟨.failure, .err (some 429) (some 30) none⟩, ⟨.failure, .ok 200⟩] =
        (match ZohoSvc.sendAttendance 3 100 0 1 ⟨1, 1, some 30000, ZohoSvc.validTok⟩
            [(⟨.failure, .ok 200⟩ : ZohoSvc.AttemptInput)] with
         | some o => some { o with attempts := o.attempts + 1, delays := ZohoSvc.calculateBackoff 100 0 :: o.delays }
         | none => none) :=
  ⟨⟨by decide, by decide⟩,
    c7_429_records_hint_and_retries 3 100 0 ZohoSvc.freshState .failure 30 0
      [⟨.failure, .ok 200⟩] (by decide) (by decide)⟩

namespace ESSL

/-- Shapes of `response.data` handled by `getTransactions`: a plain array, an
object wrapping `GetDeviceLogDataResult` (array or single element), or any
other object.  Records are abstracted by identifiers. -/
inductive EsslData where
  | arr (records : List Nat)
  | objWithResultArr (records : List Nat)
  | objWithResultSingle (r : Nat)
  | objOther
deriving DecidableEq

/-- The unwrap logic of `getTransactions` on a 200 response body: array →
itself; object with `GetDeviceLogDataResult` → that array (a non-array
result is wrapped in a singleton); anything else → empty list. -/
def unwrap : EsslData → List Nat
  | .arr records => records
  | .objWithResultArr records => records
  | .objWithResultSingle r => [r]
  | .objOther => []

/-- Observable outcome of one attempt of the loop body (JSON call plus SOAP
negotiation fallback): either a non-throwing response with status and
(possibly falsy, i.e. `none`) data, or a thrown error carrying the response
status if a response was attached (`none` = network-level error). -/
inductive EsslAttempt where
  | resp (status : Nat) (data : Option EsslData)
  | thrown (status : Option Nat)
deriving DecidableEq

/-- `ESSLService.shouldRetry`: retry when there is no error or no response
attached (network or the loop's synthetic "Unexpected response" error), or
when the status is 5xx or 429. -/
def shouldRetry (status : Option Nat) : Bool :=
  match status with
  | none => true
  | some s => decide (500 ≤ s) || decide (s = 429)

/-- `ESSLService.calculateBackoff`: `min(1000 * 2^retryCount, 15000)`. -/
def calculateBackoff (retryCount : Nat) : Nat :=
  min (1000 * 2 ^ retryCount) 15000

/-- Whether an attempt outcome makes the loop try again: a 200-with-data
response succeeds (stops), any other response yields a responseless
"Unexpected response" error (always retried), and a thrown error is retried
iff `shouldRetry` accepts its status. -/
def isRetryableFailure : EsslAttempt → Bool
  | .resp s (some _) => decide (¬s = 200)
  | .resp _ none => true
  | .thrown st => shouldRetry st

/-- Result of one `getTransactions` call: the returned list, whether a
success return was taken (otherwise the `failedRequests` counter is
incremented and `[]` is returned), the number of attempts performed, and
the backoff delays awaited. -/
structure FetchResult where
  records : List Nat
  succeeded : Bool
  failedRequestsInc : Bool
  attempts : Nat
  delays : List Nat
deriving DecidableEq

/-- The retry loop of `getTransactions` (`for attempt in 0..maxRetries`),
with `fuel` remaining iterations and `i` the absolute attempt index into
the script: a 200-with-data response returns the unwrapped list; any other
response or a retryable thrown error awaits `calculateBackoff(attempt)` and
continues; a non-retryable thrown error breaks; falling off the loop (or
breaking) increments `failedRequests` and returns `[]`. -/
def getTransactionsAux (script : Nat → EsslAttempt) : Nat → Nat → FetchResult
  | 0, _ => ⟨[], false, true, 0, []⟩
  | fuel + 1, i =>
    match script i with
    | .resp s dOpt =>
      match dOpt with
      | some d =>
        if s = 200 then
          ⟨unwrap d, true, false, 1, []⟩
        else
          let r := getTransactionsAux script fuel (i + 1)
          ⟨r.records, r.succeeded, r.failedRequestsInc, r.attempts + 1, calculateBackoff i :: r.delays⟩
      | none =>
        let r := getTransactionsAux script fuel (i + 1)
        ⟨r.records, r.succeeded, r.failedRequestsInc, r.attempts + 1, calculateBackoff i :: r.delays⟩
    | .thrown st =>
      if shouldRetry st then
        let r := getTransactionsAux script fuel (i + 1)
        ⟨r.records, r.succeeded, r.failedRequestsInc, r.attempts + 1, calculateBackoff i :: r.delays⟩
      else
        ⟨[], false, true, 1, []⟩

/-- `ESSLService.getTransactions` driven by a script of attempt outcomes,
with `config.essl.maxRetries` loop iterations. -/
def getTransactions (maxRetries : Nat) (script : Nat → EsslAttempt) : FetchResult :=
  getTransactionsAux script maxRetries 0

end ESSL

section EsslLemmas

open ESSL

/-- Specification bundle proved of the retry loop by induction: bounded
attempts, exact exponential capped backoff schedule, continuation only on
retryable failures, immediate termination on a non-retryable thrown status,
and the degraded `[]`-plus-failure-count result on non-success. -/
def auxSpec (script : Nat → EsslAttempt) (i fuelBound : Nat) (r : FetchResult) : Prop :=
  r.attempts ≤ fuelBound ∧
  r.delays = (List.range r.delays.length).map (fun j => calculateBackoff (i + j)) ∧
  (∀ j, j + 1 < r.attempts → isRetryableFailure (script (i + j)) = true) ∧
  (∀ j s, j < r.attempts → script (i + j) = .thrown (some s) →
      shouldRetry (some s) = false → r.attempts = j + 1) ∧
  (r.succeeded = false → r.records = []) ∧
  r.failedRequestsInc = !r.succeeded

theorem auxSpec_step (script : Nat → EsslAttempt) (i fuel : Nat) (r' : FetchResult)
    (hretry : isRetryableFailure (script i) = true)
    (h : auxSpec script (i + 1) fuel r') :
    auxSpec script i (fuel + 1)
      ⟨r'.records, r'.succeeded, r'.failedRequestsInc, r'.attempts + 1,
        calculateBackoff i :: r'.delays⟩ := by
  obtain ⟨ha, hb, hc, hd, he, hf⟩ := h
  refine ⟨by simpa using Nat.succ_le_succ ha, ?_, ?_, ?_, he, hf⟩
  · show calculateBackoff i :: r'.delays =
      (List.range (r'.delays.length + 1)).map (fun j => calculateBackoff (i + j))
    rw [List.range_succ_eq_map, List.map_cons, List.map_map]
    have h1 : calculateBackoff i = calculateBackoff (i + 0) := by rw [Nat.add_zero]
    have h2 : ((fun j => calculateBackoff (i + j)) ∘ Nat.succ) =
        fun j => calculateBackoff (i + 1 + j) := by
      funext j
      simp only [Function.comp]
      have : i + Nat.succ j = i + 1 + j := by omega
      rw [this]
    rw [h2, ← hb, ← h1]
  · intro j hj
    dsimp only at hj
    match j with
    | 0 => simpa using hretry
    | Nat.succ k =>
        have hk := hc k (by omega)
        have : i + (k + 1) = i + 1 + k := by omega
        rw [this]
        exact hk
  · intro j s hj hsc hns
    dsimp only at hj ⊢
    match j with
    | 0 =>
        rw [Nat.add_zero] at hsc
        rw [hsc] at hretry
        simp only [isRetryableFailure] at hretry
        rw [hns] at hretry
        exact absurd hretry (by simp)
    | Nat.succ k =>
        have : i + (k + 1) = i + 1 + k := by omega
        rw [this] at hsc
        have := hd k s (by omega) hsc hns
        omega

theorem getTransactionsAux_spec (script : Nat → EsslAttempt) :
    ∀ fuel i, auxSpec script i fuel (getTransactionsAux script fuel i) := by
  intro fuel
  induction fuel with
  | zero =>
      intro i
      refine ⟨Nat.le_refl 0, rfl, ?_, ?_, fun _ => rfl, rfl⟩
      · intro j hj
        dsimp only [getTransactionsAux] at hj
        exact absurd hj (by omega)
      · intro j s hj
        dsimp only [getTransactionsAux] at hj
        exact absurd hj (by omega)
  | succ fuel ih =>
      intro i
      cases hsc : script i with
      | resp s dOpt =>
        cases dOpt with
        | some d =>
          by_cases h200 : s = 200
          · have hred : getTransactionsAux script (fuel + 1) i = ⟨unwrap d, true, false, 1, []⟩ := by
              simp only [getTransactionsAux]
              rw [hsc]
              dsimp only
              rw [if_pos h200]
            rw [hred]
            refine ⟨?_, rfl, ?_, ?_, by simp, rfl⟩
            · show 1 ≤ fuel + 1
              omega
            · intro j hj
              dsimp only at hj
              exact absurd hj (by omega)
            · intro j s' hj habs
              dsimp only at hj
              rw [show j = 0 by omega, Nat.add_zero, hsc] at habs
              exact absurd habs (by simp)
          · have hred : getTransactionsAux script (fuel + 1) i =
                ⟨(getTransactionsAux script fuel (i + 1)).records,
                  (getTransactionsAux script fuel (i + 1)).succeeded,
                  (getTransactionsAux script fuel (i + 1)).failedRequestsInc,
                  (getTransactionsAux script fuel (i + 1)).attempts + 1,
                  calculateBackoff i :: (getTransactionsAux script fuel (i + 1)).delays⟩ := by
              simp only [getTransactionsAux]
              rw [hsc]
              dsimp only
              rw [if_neg h200]
            rw [hred]
            refine auxSpec_step script i fuel _ ?_ (ih (i + 1))
            rw [hsc]
            unfold isRetryableFailure
            exact decide_eq_true h200
        | none =>
          have hred : getTransactionsAux script (fuel + 1) i =
              ⟨(getTransactionsAux script fuel (i + 1)).records,
                (getTransactionsAux script fuel (i + 1)).succeeded,
                (getTransactionsAux script fuel (i + 1)).failedRequestsInc,
                (getTransactionsAux script fuel (i + 1)).attempts + 1,
                calculateBackoff i :: (getTransactionsAux script fuel (i + 1)).delays⟩ := by
            simp only [getTransactionsAux]
            rw [hsc]
          rw [hred]
          refine auxSpec_step script i fuel _ ?_ (ih (i + 1))
          rw [hsc]
          rfl
      | thrown st =>
        by_cases hr : shouldRetry st = true
        · have hred : getTransactionsAux script (fuel + 1) i =
              ⟨(getTransactionsAux script fuel (i + 1)).records,
                (getTransactionsAux script fuel (i + 1)).succeeded,
                (getTransactionsAux script fuel (i + 1)).failedRequestsInc,
                (getTransactionsAux script fuel (i + 1)).attempts + 1,
                calculateBackoff i :: (getTransactionsAux script fuel (i + 1)).delays⟩ := by
            simp only [getTransactionsAux]
            rw [hsc]
            dsimp only
            rw [if_pos hr]
          rw [hred]
          refine auxSpec_step script i fuel _ ?_ (ih (i + 1))
          rw [hsc]
          unfold isRetryableFailure
          exact hr
        · have hred : getTransactionsAux script (fuel + 1) i = ⟨[], false, true, 1, []⟩ := by
            simp only [getTransactionsAux]
            rw [hsc]
            dsimp only
            rw [if_neg hr]
          rw [hred]
          refine ⟨?_, rfl, ?_, ?_, fun _ => rfl, rfl⟩
          · show 1 ≤ fuel + 1
            omega
          · intro j hj
            dsimp only at hj
            exact absurd hj (by omega)
          · intro j s' hj _ _
            dsimp only at hj ⊢
            omega

end EsslLemmas

/-- C8: for every retry budget and every script of attempt outcomes, the
source client's `getTransactions` (i) performs at most `maxRetries`
attempts, (ii) awaits exactly the exponentially growing capped backoff
schedule `min(1000 * 2^attempt, 15000)`, (iii) moves on to another attempt
only after a retryable failure (network error, non-200-with-data response,
or a thrown 5xx/429 status), (iv) terminates the loop immediately after any
thrown non-retryable status (4xx other than 429), and (v) on any non-success
returns the empty list and increments the failure counter instead of
throwing (the function is total). -/
theorem c8_source_retry_policy (maxRetries : Nat) (script : Nat → ESSL.EsslAttempt) :
    (ESSL.getTransactions maxRetries script).attempts ≤ maxRetries ∧
    (ESSL.getTransactions maxRetries script).delays =
      (List.range (ESSL.getTransactions maxRetries script).delays.length).map
        ESSL.calculateBackoff ∧
    (∀ j, j + 1 < (ESSL.getTransactions maxRetries script).attempts →
      ESSL.isRetryableFailure (script j) = true) ∧
    (∀ j s, j < (ESSL.getTransactions maxRetries script).attempts →
      script j = .thrown (some s) → ESSL.shouldRetry (some s) = false →
      (ESSL.getTransactions maxRetries script).attempts = j + 1) ∧
    ((ESSL.getTransactions maxRetries script).succeeded = false →
      (ESSL.getTransactions maxRetries script).records = [] ∧
      (ESSL.getTransactions maxRetries script).failedRequestsInc = true) := by
  obtain ⟨ha, hb, hc, hd, he, hf⟩ := getTransactionsAux_spec script maxRetries 0
  unfold ESSL.getTransactions
  refine ⟨ha, ?_, ?_, ?_, ?_⟩
  · rw [hb]
    simp only [List.length_map, List.length_range]
    refine List.map_congr_left ?_
    intro j _
    rw [Nat.zero_add]
  · intro j hj
    have := hc j hj
    rwa [Nat.zero_add] at this
  · intro j s hj hthrown hns
    refine hd j s hj ?_ hns
    rwa [Nat.zero_add]
  · intro hfail
    exact ⟨he hfail, by rw [hf, hfail]; rfl⟩

namespace TimeFormat

/-- A wall-clock timestamp at one-second resolution (the instant, in the
process's single local time zone, as seen by both `formatDateTimeForZoho`
and moment's parser). -/
structure DateTime where
  year : Nat
  month : Nat
  day : Nat
  hour : Nat
  minute : Nat
  second : Nat
deriving DecidableEq

/-- Gregorian leap-year rule (as implemented by JS `Date`/moment). -/
def isLeapYear (y : Nat) : Bool :=
  decide (y % 4 = 0) && (decide (¬y % 100 = 0) || decide (y % 400 = 0))

/-- Days in a month (1-based), per the Gregorian calendar. -/
def daysInMonth (y m : Nat) : Nat :=
  if m = 1 ∨ m = 3 ∨ m = 5 ∨ m = 7 ∨ m = 8 ∨ m = 10 ∨ m = 12 then 31
  else if m = 4 ∨ m = 6 ∨ m = 9 ∨ m = 11 then 30
  else if m = 2 then (if isLeapYear y then 29 else 28)
  else 0

/-- moment's overflow validity check for a parsed calendar date-time:
month 1-12, day within the month, hour ≤ 23, minute/second ≤ 59. -/
def momentValid (dt : DateTime) : Bool :=
  decide (1 ≤ dt.month) && decide (dt.month ≤ 12) && decide (1 ≤ dt.day) &&
    decide (dt.day ≤ daysInMonth dt.year dt.month) && decide (dt.hour ≤ 23) &&
    decide (dt.minute ≤ 59) && decide (dt.second ≤ 59)

/-- A timestamp `formatDateTimeForZoho` can be fed: calendar-valid with a
four-digit year (so that JS `${date.getFullYear()}` prints four digits). -/
def validDT (dt : DateTime) : Bool :=
  momentValid dt && decide (1000 ≤ dt.year) && decide (dt.year ≤ 9999)

/-- `String(n).padStart(2, '0')` for `n ≤ 99`: the two decimal digits. -/
def pad2 (n : Nat) : List Char :=
  [Nat.digitChar (n / 10 % 10), Nat.digitChar (n % 10)]

/-- `${year}` for a four-digit year: the four decimal digits. -/
def year4 (y : Nat) : List Char :=
  [Nat.digitChar (y / 1000 % 10), Nat.digitChar (y / 100 % 10),
    Nat.digitChar (y / 10 % 10), Nat.digitChar (y % 10)]

/-- `ZohoService.formatDateTimeForZoho`: `dd/MM/yyyy HH:mm:ss` built from the
date's components, with two-digit zero-padded fields.  Strings are modelled
as character lists. -/
def formatDateTimeForZoho (dt : DateTime) : List Char :=
  pad2 dt.day ++ '/' :: pad2 dt.month ++ '/' :: year4 dt.year ++ ' ' ::
    pad2 dt.hour ++ ':' :: pad2 dt.minute ++ ':' :: pad2 dt.second

/-- The canonical output format of `formatTimestamp`:
`YYYY-MM-DD HH:mm:ss`. -/
def formatCanonical (dt : DateTime) : List Char :=
  year4 dt.year ++ '-' :: pad2 dt.month ++ '-' :: pad2 dt.day ++ ' ' ::
    pad2 dt.hour ++ ':' :: pad2 dt.minute ++ ':' :: pad2 dt.second

/-- Value of a decimal digit character. -/
def digitVal (c : Char) : Option Nat :=
  if c.isDigit then some (c.toNat - 48) else none

/-- Consume one digit. -/
def parse1 : List Char → Option (Nat × List Char)
  | [] => none
  | c :: rest =>
    match digitVal c with
    | some v => some (v, rest)
    | none => none

/-- Consume a two-digit field. -/
def parse2 (l : List Char) : Option (Nat × List Char) :=
  match parse1 l with
  | none => none
  | some (a, l1) =>
    match parse1 l1 with
    | none => none
    | some (b, l2) => some (10 * a + b, l2)

/-- Consume a four-digit field. -/
def parse4 (l : List Char) : Option (Nat × List Char) :=
  match parse1 l with
  | none => none
  | some (a, l1) =>
    match parse1 l1 with
    | none => none
    | some (b, l2) =>
      match parse1 l2 with
      | none => none
      | some (c, l3) =>
        match parse1 l3 with
        | none => none
        | some (d, l4) => some (1000 * a + 100 * b + 10 * c + d, l4)

/-- Consume one expected separator character. -/
def expectChar (c : Char) : List Char → Option (List Char)
  | [] => none
  | a :: rest => if a = c then some rest else none

/-- Consume the `HH:mm:ss` tail, requiring end of input. -/
def parseHMS (l : List Char) : Option (Nat × Nat × Nat) :=
  match parse2 l with
  | none => none
  | some (h, l1) =>
    match expectChar ':' l1 with
    | none => none
    | some l2 =>
      match parse2 l2 with
      | none => none
      | some (mi, l3) =>
        match expectChar ':' l3 with
        | none => none
        | some l4 =>
          match parse2 l4 with
          | none => none
          | some (s, l5) => if l5.isEmpty then some (h, mi, s) else none

/-- One moment format attempt, `DD/MM/YYYY HH:mm:ss`: positional parse plus
moment's overflow validity check. -/
def parseDDMM (l : List Char) : Option DateTime :=
  match parse2 l with
  | none => none
  | some (d, l1) =>
    match expectChar '/' l1 with
    | none => none
    | some l2 =>
      match parse2 l2 with
      | none => none
      | some (m, l3) =>
        match expectChar '/' l3 with
        | none => none
        | some l4 =>
          match parse4 l4 with
          | none => none
          | some (y, l5) =>
            match expectChar ' ' l5 with
            | none => none
            | some l6 =>
              match parseHMS l6 with
              | none => none
              | some (h, mi, s) =>
                if momentValid ⟨y, m, d, h, mi, s⟩ then some ⟨y, m, d, h, mi, s⟩ else none

/-- `MM/DD/YYYY HH:mm:ss`. -/
def parseMDY (l : List Char) : Option DateTime :=
  match parse2 l with
  | none => none
  | some (m, l1) =>
    match expectChar '/' l1 with
    | none => none
    | some l2 =>
      match parse2 l2 with
      | none => none
      | some (d, l3) =>
        match expectChar '/' l3 with
        | none => none
        | some l4 =>
          match parse4 l4 with
          | none => none
          | some (y, l5) =>
            match expectChar ' ' l5 with
            | none => none
            | some l6 =>
              match parseHMS l6 with
              | none => none
              | some (h, mi, s) =>
                if momentValid ⟨y, m, d, h, mi, s⟩ then some ⟨y, m, d, h, mi, s⟩ else none

/-- `YYYY-MM-DD HH:mm:ss`. -/
def parseYMDdash (l : List Char) : Option DateTime :=
  match parse4 l with
  | none => none
  | some (y, l1) =>
    match expectChar '-' l1 with
    | none => none
    | some l2 =>
      match parse2 l2 with
      | none => none
      | some (m, l3) =>
        match expectChar '-' l3 with
        | none => none
        | some l4 =>
          match parse2 l4 with
          | none => none
          | some (d, l5) =>
            match expectChar ' ' l5 with
            | none => none
            | some l6 =>
              match parseHMS l6 with
              | none => none
              | some (h, mi, s) =>
                if momentValid ⟨y, m, d, h, mi, s⟩ then some ⟨y, m, d, h, mi, s⟩ else none

/-- `YYYY/MM/DD HH:mm:ss`. -/
def parseYMDslash (l : List Char) : Option DateTime :=
  match parse4 l with
  | none => none
  | some (y, l1) =>
    match expectChar '/' l1 with
    | none => none
    | some l2 =>
      match parse2 l2 with
      | none => none
      | some (m, l3) =>
        match expectChar '/' l3 with
        | none => none
        | some l4 =>
          match parse2 l4 with
          | none => none
          | some (d, l5) =>
            match expectChar ' ' l5 with
            | none => none
            | some l6 =>
              match parseHMS l6 with
              | none => none
              | some (h, mi, s) =>
                if momentValid ⟨y, m, d, h, mi, s⟩ then some ⟨y, m, d, h, mi, s⟩ else none

/-- The multi-format `moment(timestamp, [...])` call of `formatTimestamp`,
over its four formats in declared order.  moment keeps the candidate with
the strictly best score (valid parses beat invalid ones; earlier formats
win ties), so on inputs where each format either matches exactly and
validly or fails, the first fully-valid format wins — which is what this
first-success chain implements.  A near-miss lenient parse (e.g. `YYYY-MM-DD`
against a `dd/MM/yyyy` string) produces an overflowed, invalid date, which
moment discards just as the positional parser here rejects it. -/
def momentMultiParse (l : List Char) : Option DateTime :=
  (parseYMDdash l) <|> (parseDDMM l) <|> (parseMDY l) <|> (parseYMDslash l)

/-- JS truthiness of an optional string (absent or empty → falsy). -/
def jsTruthy : Option (List Char) → Bool
  | some (_ :: _) => true
  | _ => false

/-- `OptimizedSyncService.formatTimestamp(dateStr, timeStr)`: combine the
two fields (or accept a combined `dateStr` containing a space), parse with
the four-format moment call, and re-format as `YYYY-MM-DD HH:mm:ss`;
`none` models the `null` returns. -/
def formatTimestamp (dateStr timeStr : Option (List Char)) : Option (List Char) :=
  let ts : Option (List Char) :=
    if jsTruthy dateStr && jsTruthy timeStr then
      some ((dateStr.getD []) ++ ' ' :: (timeStr.getD []))
    else if jsTruthy dateStr && decide (' ' ∈ dateStr.getD []) then
      dateStr
    else
      none
  match ts with
  | none => none
  | some t => (momentMultiParse t).map formatCanonical

end TimeFormat


section TimeFormatLemmas
open TimeFormat

theorem digitVal_digitChar (d : Nat) (hd : d < 10) :
    digitVal (Nat.digitChar d) = some d := by
  have hall : ∀ e, e < 10 → digitVal (Nat.digitChar e) = some e := by decide
  exact hall d hd

theorem parse1_digitChar_mod (n : Nat) (rest : List Char) :
    parse1 (Nat.digitChar (n % 10) :: rest) = some (n % 10, rest) := by
  unfold parse1
  dsimp only
  rw [digitVal_digitChar (n % 10) (Nat.mod_lt n (by omega))]

theorem expectChar_cons (c : Char) (l : List Char) : expectChar c (c :: l) = some l := by
  unfold expectChar
  dsimp only
  rw [if_pos rfl]

theorem parse2_digits (n : Nat) (rest : List Char) (h : n < 100) :
    parse2 (Nat.digitChar (n / 10 % 10) :: Nat.digitChar (n % 10) :: rest) = some (n, rest) := by
  unfold parse2
  rw [parse1_digitChar_mod (n / 10) (Nat.digitChar (n % 10) :: rest)]
  dsimp only
  rw [parse1_digitChar_mod n rest]
  dsimp only
  have : 10 * (n / 10 % 10) + n % 10 = n := by omega
  rw [this]

theorem parse4_digits (y : Nat) (rest : List Char) (h : y ≤ 9999) :
    parse4 (Nat.digitChar (y / 1000 % 10) :: Nat.digitChar (y / 100 % 10) ::
      Nat.digitChar (y / 10 % 10) :: Nat.digitChar (y % 10) :: rest) = some (y, rest) := by
  unfold parse4
  rw [parse1_digitChar_mod (y / 1000)]
  dsimp only
  rw [parse1_digitChar_mod (y / 100)]
  dsimp only
  rw [parse1_digitChar_mod (y / 10)]
  dsimp only
  rw [parse1_digitChar_mod y]
  dsimp only
  have : 1000 * (y / 1000 % 10) + 100 * (y / 100 % 10) + 10 * (y / 10 % 10) + y % 10 = y := by
    omega
  rw [this]

theorem parseHMS_digits (h mi s : Nat) (hh : h < 100) (hmi : mi < 100) (hs : s < 100) :
    parseHMS (Nat.digitChar (h / 10 % 10) :: Nat.digitChar (h % 10) :: ':' ::
      Nat.digitChar (mi / 10 % 10) :: Nat.digitChar (mi % 10) :: ':' ::
      Nat.digitChar (s / 10 % 10) :: Nat.digitChar (s % 10) :: []) = some (h, mi, s) := by
  unfold parseHMS
  rw [parse2_digits h _ hh]
  dsimp only
  rw [expectChar_cons]
  dsimp only
  rw [parse2_digits mi _ hmi]
  dsimp only
  rw [expectChar_cons]
  dsimp only
  rw [parse2_digits s _ hs]
  dsimp only
  rfl

theorem format_cons (dt : DateTime) :
    formatDateTimeForZoho dt =
      Nat.digitChar (dt.day / 10 % 10) :: Nat.digitChar (dt.day % 10) :: '/' ::
      Nat.digitChar (dt.month / 10 % 10) :: Nat.digitChar (dt.month % 10) :: '/' ::
      Nat.digitChar (dt.year / 1000 % 10) :: Nat.digitChar (dt.year / 100 % 10) ::
      Nat.digitChar (dt.year / 10 % 10) :: Nat.digitChar (dt.year % 10) :: ' ' ::
      Nat.digitChar (dt.hour / 10 % 10) :: Nat.digitChar (dt.hour % 10) :: ':' ::
      Nat.digitChar (dt.minute / 10 % 10) :: Nat.digitChar (dt.minute % 10) :: ':' ::
      Nat.digitChar (dt.second / 10 % 10) :: Nat.digitChar (dt.second % 10) :: [] := by
  rfl

theorem daysInMonth_le (y m : Nat) : daysInMonth y m ≤ 31 := by
  unfold daysInMonth
  split
  · omega
  · split
    · omega
    · split
      · split <;> omega
      · omega

theorem parseDDMM_format (dt : DateTime) (hv : validDT dt = true) :
    parseDDMM (formatDateTimeForZoho dt) = some dt := by
  have hv' := hv
  unfold validDT at hv'
  simp only [Bool.and_eq_true, decide_eq_true_eq] at hv'
  obtain ⟨⟨hmv, hy1⟩, hy2⟩ := hv'
  have hmv' := hmv
  unfold momentValid at hmv'
  simp only [Bool.and_eq_true, decide_eq_true_eq] at hmv'
  obtain ⟨⟨⟨⟨⟨⟨hm1, hm2⟩, hd1⟩, hdle⟩, hh⟩, hmi⟩, hs⟩ := hmv'
  have hdm := daysInMonth_le dt.year dt.month
  rw [format_cons]
  unfold parseDDMM
  rw [parse2_digits dt.day _ (by omega)]
  dsimp only
  rw [expectChar_cons]
  dsimp only
  rw [parse2_digits dt.month _ (by omega)]
  dsimp only
  rw [expectChar_cons]
  dsimp only
  rw [parse4_digits dt.year _ (by omega)]
  dsimp only
  rw [expectChar_cons]
  dsimp only
  rw [parseHMS_digits dt.hour dt.minute dt.second (by omega) (by omega) (by omega)]
  dsimp only
  rw [if_pos (show momentValid ⟨dt.year, dt.month, dt.day, dt.hour, dt.minute, dt.second⟩ = true from hmv)]

theorem parse4_dd_slash (x y : Nat) (rest : List Char) :
    parse4 (Nat.digitChar (x % 10) :: Nat.digitChar (y % 10) :: '/' :: rest) = none := by
  unfold parse4
  rw [parse1_digitChar_mod x]
  dsimp only
  rw [parse1_digitChar_mod y]
  dsimp only
  rfl

theorem parseYMDdash_format (dt : DateTime) :
    parseYMDdash (formatDateTimeForZoho dt) = none := by
  rw [format_cons]
  unfold parseYMDdash
  rw [parse4_dd_slash (dt.day / 10) dt.day]

theorem momentMultiParse_format (dt : DateTime) (hv : validDT dt = true) :
    momentMultiParse (formatDateTimeForZoho dt) = some dt := by
  unfold momentMultiParse
  rw [parseYMDdash_format, parseDDMM_format dt hv]
  rfl

theorem formatCanonical_cons (dt : DateTime) :
    formatCanonical dt =
      Nat.digitChar (dt.year / 1000 % 10) :: Nat.digitChar (dt.year / 100 % 10) ::
      Nat.digitChar (dt.year / 10 % 10) :: Nat.digitChar (dt.year % 10) :: '-' ::
      Nat.digitChar (dt.month / 10 % 10) :: Nat.digitChar (dt.month % 10) :: '-' ::
      Nat.digitChar (dt.day / 10 % 10) :: Nat.digitChar (dt.day % 10) :: ' ' ::
      Nat.digitChar (dt.hour / 10 % 10) :: Nat.digitChar (dt.hour % 10) :: ':' ::
      Nat.digitChar (dt.minute / 10 % 10) :: Nat.digitChar (dt.minute % 10) :: ':' ::
      Nat.digitChar (dt.second / 10 % 10) :: Nat.digitChar (dt.second % 10) :: [] := by
  rfl

theorem parseYMDdash_canonical (dt : DateTime) (hv : validDT dt = true) :
    parseYMDdash (formatCanonical dt) = some dt := by
  have hv' := hv
  unfold validDT at hv'
  simp only [Bool.and_eq_true, decide_eq_true_eq] at hv'
  obtain ⟨⟨hmv, hy1⟩, hy2⟩ := hv'
  have hmv' := hmv
  unfold momentValid at hmv'
  simp only [Bool.and_eq_true, decide_eq_true_eq] at hmv'
  obtain ⟨⟨⟨⟨⟨⟨hm1, hm2⟩, hd1⟩, hdle⟩, hh⟩, hmi⟩, hs⟩ := hmv'
  have hdm := daysInMonth_le dt.year dt.month
  rw [formatCanonical_cons]
  unfold parseYMDdash
  rw [parse4_digits dt.year _ (by omega)]
  dsimp only
  rw [expectChar_cons]
  dsimp only
  rw [parse2_digits dt.month _ (by omega)]
  dsimp only
  rw [expectChar_cons]
  dsimp only
  rw [parse2_digits dt.day _ (by omega)]
  dsimp only
  rw [expectChar_cons]
  dsimp only
  rw [parseHMS_digits dt.hour dt.minute dt.second (by omega) (by omega) (by omega)]
  dsimp only
  rw [if_pos (show momentValid ⟨dt.year, dt.month, dt.day, dt.hour, dt.minute, dt.second⟩ = true from hmv)]

theorem formatTimestamp_roundtrip (dt : DateTime) (hv : validDT dt = true) :
    formatTimestamp (some (formatDateTimeForZoho dt)) none = some (formatCanonical dt) := by
  have hmem : ' ' ∈ formatDateTimeForZoho dt := by
    rw [format_cons]
    simp
  have hjt : jsTruthy (some (formatDateTimeForZoho dt)) = true := by
    rw [format_cons]
    rfl
  unfold formatTimestamp
  dsimp only
  rw [hjt]
  rw [show jsTruthy none = false from rfl]
  rw [show (true && false) = false from rfl]
  rw [if_neg (by simp)]
  rw [show (some (formatDateTimeForZoho dt)).getD [] = formatDateTimeForZoho dt from rfl]
  rw [decide_eq_true hmem]
  rw [show (true && true) = true from rfl]
  rw [if_pos rfl]
  dsimp only
  rw [momentMultiParse_format dt hv]
  rfl
end TimeFormatLemmas

/-- C9: for every calendar-valid timestamp with a four-digit year, formatting
it into the canonical sink format `dd/MM/yyyy HH:mm:ss` via
`formatDateTimeForZoho` and parsing the result back through the transform
stage's multi-format moment parser yields the original instant exactly (one-
second resolution is the representation's granularity): the multi-format
parse recovers the original components, `formatTimestamp` re-emits them as
the canonical `YYYY-MM-DD HH:mm:ss` string, and that string parses back to
the same instant. -/
theorem c9_roundtrip_format_parse (dt : TimeFormat.DateTime)
    (hv : TimeFormat.validDT dt = true) :
    TimeFormat.momentMultiParse (TimeFormat.formatDateTimeForZoho dt) = some dt ∧
    TimeFormat.formatTimestamp (some (TimeFormat.formatDateTimeForZoho dt)) none =
      some (TimeFormat.formatCanonical dt) ∧
    TimeFormat.parseYMDdash (TimeFormat.formatCanonical dt) = some dt :=
  ⟨momentMultiParse_format dt hv, formatTimestamp_roundtrip dt hv,
    parseYMDdash_canonical dt hv⟩

/-- Witness for C9 at the concrete instant 2021-03-05 10:20:34. -/
theorem c9_roundtrip_format_parse_witness :
    TimeFormat.validDT ⟨2021, 3, 5, 10, 20, 34⟩ = true ∧
      TimeFormat.momentMultiParse
          (TimeFormat.formatDateTimeForZoho ⟨2021, 3, 5, 10, 20, 34⟩) =
        some ⟨2021, 3, 5, 10, 20, 34⟩ :=
  ⟨by decide, (c9_roundtrip_format_parse ⟨2021, 3, 5, 10, 20, 34⟩ (by decide)).1⟩
